import Mathlib

/-!
Verification of the notion-cli core runtime contract.

Shallow embedding of the four core components described by the spec:
the error taxonomy (src/core/errors.ts), the HTTP request engine with
path-safety validation and retry loop (src/core/http.ts, concatenated in
src/src/core/output.ts), the pagination engine (src/core/pagination.ts),
the async operation registry (dist/ops/registry.js together with the
wait loop of dist/commands/ops.js), and the command execution harness
(src/core/cli.ts).

Conventions of the embedding:
* Machine strings that are only inspected character-wise (request paths)
  are List Char; other strings stay String.
* Timestamps: the source stores ISO-8601 strings and compares them via
  new Date(s).getTime(); we model a timestamp directly as the Int of
  epoch milliseconds (the conversion is a monotone bijection on valid
  ISO strings, and only getTime comparisons are ever performed).
* Thrown JavaScript exceptions are the Thrown type: CliError values and
  other Error values (URIError, network errors, ...).
* The upstream network is an oracle Nat -> FetchOutcome giving the
  outcome of each physical attempt in order.
* The unbounded while loops of the source (retry loop, pagination loop)
  become fuel-indexed recursions; returning none means the fuel ran out,
  so termination statements quantify over sufficiently large fuel.
-/

namespace NotionCli

/-! ## Error taxonomy — src/src/core/errors.ts -/

/-- The closed set of taxonomy error codes (ErrorCode union type). -/
inductive ErrorCode where
  | INVALID_ARGUMENT
  | MISSING_ARGUMENT
  | RESOURCE_NOT_FOUND
  | ALREADY_EXISTS
  | PERMISSION_DENIED
  | AUTH_FAILED
  | RATE_LIMITED
  | TIMEOUT
  | CONFLICT
  | PRECONDITION_FAILED
  | CONFIRMATION_REQUIRED
  | IDEMPOTENCY_KEY_CONFLICT
  | UNSUPPORTED_SCHEMA_VERSION
  | INTERNAL_ERROR
  | DEPENDENCY_MISSING
  | CONFIG_ERROR
  | UNSUPPORTED_OPERATION
deriving DecidableEq, Repr

/-- EXIT_CODES table of src/src/core/errors.ts restricted to error codes
(the SUCCESS and PARTIAL rows are the separate constants below). -/
def EXIT_CODES : ErrorCode → Nat
  | .INVALID_ARGUMENT => 2
  | .MISSING_ARGUMENT => 2
  | .RESOURCE_NOT_FOUND => 4
  | .ALREADY_EXISTS => 1
  | .PERMISSION_DENIED => 11
  | .AUTH_FAILED => 10
  | .RATE_LIMITED => 12
  | .TIMEOUT => 20
  | .CONFLICT => 5
  | .PRECONDITION_FAILED => 1
  | .CONFIRMATION_REQUIRED => 1
  | .IDEMPOTENCY_KEY_CONFLICT => 1
  | .UNSUPPORTED_SCHEMA_VERSION => 1
  | .INTERNAL_ERROR => 125
  | .DEPENDENCY_MISSING => 30
  | .CONFIG_ERROR => 1
  | .UNSUPPORTED_OPERATION => 1

/-- EXIT_CODES.SUCCESS. -/
def EXIT_SUCCESS : Nat := 0

/-- EXIT_CODES.PARTIAL. -/
def EXIT_PARTIAL : Nat := 3

/-- The CliError class: taxonomy code, message, recoverable flag and the
optional suggested action (the free-form context record carries no
information used by any claim and is omitted). -/
structure CliError where
  code : ErrorCode
  message : String
  recoverable : Bool
  suggestedAction : Option String := none
deriving DecidableEq, Repr

/-- A thrown JavaScript exception: either a CliError or any other Error
(URIError from decodeURIComponent, undici network failures, ...). -/
inductive Thrown where
  | cli (e : CliError)
  | other (message : String)
deriving DecidableEq, Repr

/-- mapHttpStatusToError of src/src/core/errors.ts. -/
def mapHttpStatusToError (status : Nat) : ErrorCode :=
  if status = 400 then .INVALID_ARGUMENT
  else if status = 401 then .AUTH_FAILED
  else if status = 403 then .PERMISSION_DENIED
  else if status = 404 then .RESOURCE_NOT_FOUND
  else if status = 409 then .CONFLICT
  else if status = 412 then .PRECONDITION_FAILED
  else if status = 429 then .RATE_LIMITED
  else if status = 408 then .TIMEOUT
  else if 500 ≤ status then .INTERNAL_ERROR
  else .INTERNAL_ERROR

/-! ## Path safety — validatePath in src/core/http.ts

validatePath runs decodeURIComponent on the path, lower-cases the
result and rejects when it contains ".." or "%2e". We model the ASCII
fragment of the JavaScript built-ins: percent triples decoding to a
byte below 0x80 and literal ASCII characters. Inputs that are malformed
percent encodings decode to none, exactly where decodeURIComponent
throws URIError; inputs involving non-ASCII bytes are left out of the
model (also none), and no claim is settled on them. -/

/-- Value of one hexadecimal digit character, none otherwise. -/
def hexVal (c : Char) : Option Nat :=
  if '0' ≤ c ∧ c ≤ '9' then some (c.toNat - '0'.toNat)
  else if 'a' ≤ c ∧ c ≤ 'f' then some (c.toNat - 'a'.toNat + 10)
  else if 'A' ≤ c ∧ c ≤ 'F' then some (c.toNat - 'A'.toNat + 10)
  else none

/-- ASCII fragment of decodeURIComponent: a literal ASCII character
stands for itself, and a percent triple %XY stands for the byte XY when
that byte is ASCII. none corresponds to a URIError throw (truncated or
non-hex triple) or to leaving the modelled ASCII fragment. -/
def decodeURIComponent : List Char → Option (List Char)
  | [] => some []
  | c :: rest =>
    if c = '%' then
      match rest with
      | h1 :: h2 :: rest2 =>
        match hexVal h1, hexVal h2 with
        | some a, some b =>
          if 16 * a + b < 128 then
            (decodeURIComponent rest2).map (fun d => Char.ofNat (16 * a + b) :: d)
          else none
        | _, _ => none
      | _ => none
    else if c.toNat < 128 then (decodeURIComponent rest).map (fun d => c :: d)
    else none

/-- ASCII fragment of String.prototype.toLowerCase, applied per char. -/
def asciiLower (c : Char) : Char :=
  if 'A' ≤ c ∧ c ≤ 'Z' then Char.ofNat (c.toNat + 32) else c

/-- The CliError thrown by validatePath (its context record, holding the
offending path, is omitted like every context). -/
def pathTraversalError : CliError :=
  { code := .INVALID_ARGUMENT
    message := "Path traversal is not allowed"
    suggestedAction := some "Provide a safe API path"
    recoverable := true }

/-- validatePath of src/core/http.ts: percent-decode, lower-case, and
reject when the result contains ".." or "%2e". A URIError escaping
decodeURIComponent is the Thrown.other case. -/
def validatePath (p : List Char) : Except Thrown Unit :=
  match decodeURIComponent p with
  | none => Except.error (Thrown.other "URIError: URI malformed")
  | some dec =>
    let lowered := dec.map asciiLower
    if ['.', '.'] <:+: lowered ∨ ['%', '2', 'e'] <:+: lowered then
      Except.error (Thrown.cli pathTraversalError)
    else Except.ok ()

/-! ## HTTP request engine — request in src/core/http.ts

The engine is modelled at the granularity relevant to its observable
contract: the upstream is an oracle giving the outcome of every physical
attempt, and request returns the final outcome together with the number
of physical attempts performed. Header assembly, query encoding and the
request body do not influence any modelled observable and are omitted;
the per-attempt timeout surfaces as the FetchOutcome.timeout case (the
AbortError branch of doFetch, translated there to a CliError TIMEOUT). -/

/-- The parsed JSON body of an upstream response, as far as the engine
inspects it (error code and message fields). -/
structure JsonBody where
  code : Option String := none
  message : Option String := none
deriving DecidableEq, Repr

/-- Outcome of a single physical attempt: a response with status, body
and optional Retry-After header (seconds), a timeout of the attempt, or
a non-CliError network failure thrown by the transport. -/
inductive FetchOutcome where
  | ok (status : Nat) (body : JsonBody) (retryAfter : Option Nat)
  | timeout
  | netError (message : String)
deriving DecidableEq, Repr

/-- The HttpResponse value returned on 2xx. -/
structure HttpResponse where
  status : Nat
  data : JsonBody
  retryAfter : Option Nat
deriving DecidableEq, Repr

/-- The CliError produced by doFetch when the per-attempt timer fires. -/
def timeoutError (timeoutMs : Nat) : CliError :=
  { code := .TIMEOUT
    message := "Request timed out after " ++ toString timeoutMs ++ "ms"
    recoverable := true
    suggestedAction := some "Retry with a higher --timeout value" }

/-- The CliError built from a non-2xx upstream response. -/
def httpStatusError (status : Nat) (body : JsonBody) : CliError :=
  { code := mapHttpStatusToError status
    message := body.message.getD ("Request failed with " ++ toString status)
    recoverable := decide (status = 429 ∨ 500 ≤ status)
    suggestedAction :=
      if status = 429 then some "Retry after the Retry-After interval" else none }

/-- The catch-all CliError of the line after the retry loop. -/
def requestFailedError : CliError :=
  { code := .INTERNAL_ERROR, message := "Request failed", recoverable := false }

/-- The while loop of request, one recursive call per continue. attempt
is the value of the attempt counter at the loop head (number of physical
attempts already made) and budget the number of loop entries still
allowed, i.e. retries + 1 - attempt: the loop-head test
attempt <= retries is budget being nonzero, and the in-loop test
attempt + 1 <= retries (after the counter increment) is 1 <= budget for
the decremented budget. The pair's second component is the total number
of physical attempts once the loop exits. Faithful to the source:
* 2xx returns the response;
* a 429 with attempts remaining sleeps for the Retry-After delay and
  continues without touching lastError (the continue precedes the throw);
* any other non-2xx throws a CliError, which the catch retries exactly
  when its code is TIMEOUT (i.e. HTTP 408) and attempts remain;
* a timed-out attempt throws CliError TIMEOUT, retried the same way;
* a non-CliError transport failure sets lastError and falls through to
  the next iteration, or breaks when the budget is exhausted;
* a normally-exited loop rethrows lastError when present, otherwise the
  catch-all INTERNAL_ERROR. -/
def requestLoop (upstream : Nat → FetchOutcome) (timeoutMs : Nat) :
    Nat → Nat → Option Thrown → Except Thrown HttpResponse × Nat
  | attempt, 0, lastError =>
    (match lastError with
     | some e => Except.error e
     | none => Except.error (Thrown.cli requestFailedError), attempt)
  | attempt, budget + 1, lastError =>
    match upstream attempt with
    | .timeout =>
      if 1 ≤ budget then
        requestLoop upstream timeoutMs (attempt + 1) budget
          (some (Thrown.cli (timeoutError timeoutMs)))
      else (Except.error (Thrown.cli (timeoutError timeoutMs)), attempt + 1)
    | .netError msg =>
      if budget < 1 then (Except.error (Thrown.other msg), attempt + 1)
      else requestLoop upstream timeoutMs (attempt + 1) budget (some (Thrown.other msg))
    | .ok status body retryAfter =>
      if 200 ≤ status ∧ status < 300 then
        (Except.ok ⟨status, body, retryAfter⟩, attempt + 1)
      else if status = 429 ∧ 1 ≤ budget then
        requestLoop upstream timeoutMs (attempt + 1) budget lastError
      else if mapHttpStatusToError status = .TIMEOUT ∧ 1 ≤ budget then
        requestLoop upstream timeoutMs (attempt + 1) budget
          (some (Thrown.cli (httpStatusError status body)))
      else (Except.error (Thrown.cli (httpStatusError status body)), attempt + 1)

/-- request of src/core/http.ts: validate the path, then run the retry
loop with attempt counter 0 and full budget retries + 1. The second
component counts physical attempts; a rejected path makes none. -/
def request (upstream : Nat → FetchOutcome) (path : List Char)
    (timeoutMs retries : Nat) : Except Thrown HttpResponse × Nat :=
  match validatePath path with
  | Except.error e => (Except.error e, 0)
  | Except.ok _ => requestLoop upstream timeoutMs 0 (retries + 1) none

/-! ## Pagination engine — paginateAll in src/core/pagination.ts -/

/-- One page returned by a page-fetch function. next_cursor is the
string-or-null field. -/
structure Page (α : Type) where
  results : List α
  has_more : Bool
  next_cursor : Option String
deriving DecidableEq, Repr

/-- One NDJSON line written in streaming mode. -/
inductive NdLine (α : Type) where
  | item (data : α)
  | summary (count : Nat)
deriving DecidableEq, Repr

/-- JavaScript falsiness of the string-or-null cursor: null and the
empty string are falsy. -/
def cursorFalsy : Option String → Bool
  | none => true
  | some s => s = ""

/-- The loop exit condition: if (!page.has_more || !page.next_cursor). -/
def pageStops {α : Type} (page : Page α) : Bool :=
  !page.has_more || cursorFalsy page.next_cursor

/-- The while loop of paginateAll, fuel-indexed (none = fuel exhausted,
the source loop is unbounded). out is the list of NDJSON lines written
so far, all the accumulator, total the running count; per iteration the
streaming branch writes one item line per result and bumps total, the
accumulating branch extends all and sets total to its length. -/
def paginateGo {α : Type} (fetchPage : Option String → Page α) (ndjson : Bool) :
    Nat → Option String → List (NdLine α) → List α → Nat →
    Option (List (NdLine α) × List α × Nat)
  | 0, _, _, _, _ => none
  | fuel + 1, cursor, out, all, total =>
    let page := fetchPage cursor
    let out' := if ndjson then out ++ page.results.map NdLine.item else out
    let all' := if ndjson then all else all ++ page.results
    let total' := if ndjson then total + page.results.length
                  else (all ++ page.results).length
    if pageStops page then some (out', all', total')
    else paginateGo fetchPage ndjson fuel page.next_cursor out' all' total'

/-- paginateAll of src/core/pagination.ts: run the loop from a null
cursor and empty accumulators; afterwards streaming mode writes exactly
one summary line and returns null (modelled as the none result), while
accumulating mode returns the results and their count. The returned
pair is (lines written to stdout, in-memory result). -/
def paginateAll {α : Type} (fetchPage : Option String → Page α) (ndjson : Bool)
    (fuel : Nat) : Option (List (NdLine α) × Option (List α × Nat)) :=
  match paginateGo fetchPage ndjson fuel none [] [] 0 with
  | none => none
  | some (out, all, total) =>
    if ndjson then some (out ++ [NdLine.summary total], none)
    else some (out, some (all, total))

/-- The cursor fed to the k-th call of fetchPage by the loop (call 0
gets null, call k+1 gets the next_cursor of the k-th page), as long as
the loop is still running at call k. -/
def traceCursor {α : Type} (fetchPage : Option String → Page α) : Nat → Option String
  | 0 => none
  | k + 1 => (fetchPage (traceCursor fetchPage k)).next_cursor

/-- The page seen at the k-th loop iteration. -/
def pageSeq {α : Type} (fetchPage : Option String → Page α) (k : Nat) : Page α :=
  fetchPage (traceCursor fetchPage k)

/-- Concatenation of the results of pages i, i+1, ..., i+j in order. -/
def segment {α : Type} (fetchPage : Option String → Page α) (i : Nat) : Nat → List α
  | 0 => (pageSeq fetchPage i).results
  | j + 1 => (pageSeq fetchPage i).results ++ segment fetchPage (i + 1) j

/-! ## Async operation registry — dist/ops/registry.js

The on-disk JSONL store is modelled as the list of receipts its lines
parse to; readOps is the parse of that list (it performs no pruning),
and the write paths rewrite the full list. nowIso() becomes an explicit
now argument in epoch milliseconds. Metadata values (arbitrary JSON in
the source) are abstracted to strings; every claim only concerns the
presence and identity of entries, never the values' structure. -/

/-- Receipt status enum. -/
inductive OpStatus where
  | PENDING
  | IN_PROGRESS
  | COMPLETED
  | FAILED
deriving DecidableEq, Repr

/-- The error field of a failed receipt. -/
structure OpError where
  code : String
  message : String
deriving DecidableEq, Repr

/-- The poll descriptor of a receipt. -/
structure PollDesc where
  method : String
  path : String
deriving DecidableEq, Repr

/-- An OperationReceipt (src/ops/registry.ts types). -/
structure Receipt where
  op_id : String
  type : String
  status : OpStatus
  resource_id : Option String
  resource_type : Option String
  created_at : Int
  updated_at : Int
  metadata : List (String × String)
  poll : Option PollDesc
  error : Option OpError
deriving DecidableEq, Repr

/-- MILLIS_PER_DAY of dist/ops/registry.js. -/
def MILLIS_PER_DAY : Int := 24 * 60 * 60 * 1000

/-- Modelled from the spec: the constants module (src/core/constants.ts)
is not under src/; the spec (and the repository discovery notes) fix the
registry retention window at 30 days, so RETENTION_DAYS is taken from
there. -/
def RETENTION_DAYS : Int := 30

/-- cleanupOps: keep receipts whose updated_at is at or after the cutoff
now - RETENTION_DAYS * MILLIS_PER_DAY. -/
def cleanupOps (now : Int) (ops : List Receipt) : List Receipt :=
  ops.filter (fun op => decide (now - RETENTION_DAYS * MILLIS_PER_DAY ≤ op.updated_at))

/-- readOps: parse every line of the store as one receipt; an absent
store is the empty list. No pruning happens on read. -/
def readOps (file : List Receipt) : List Receipt := file

/-- appendOp: read, prune, push the new receipt, rewrite. -/
def appendOp (now : Int) (op : Receipt) (file : List Receipt) : List Receipt :=
  cleanupOps now (readOps file) ++ [op]

/-- updateOp: read, prune, replace the entry with matching op_id,
rewrite. -/
def updateOp (now : Int) (op : Receipt) (file : List Receipt) : List Receipt :=
  (cleanupOps now (readOps file)).map
    (fun existing => if existing.op_id = op.op_id then op else existing)

/-- The overlay fields the repository ever passes to touchOp: the wait
loop patches status, metadata and error (dist/commands/ops.js lines
70 and 74-80); a none field is absent from the patch object. -/
structure Patch where
  status : Option OpStatus := none
  metadata : Option (List (String × String)) := none
  error : Option OpError := none
deriving DecidableEq, Repr

/-- touchOp: the JavaScript spread { ...op, ...patch, updated_at: now }.
A field present in the patch replaces the receipt field wholesale (the
spread is shallow); absent fields are kept; updated_at is refreshed. -/
def touchOp (now : Int) (op : Receipt) (patch : Patch) : Receipt :=
  { op with
    status := patch.status.getD op.status
    metadata := patch.metadata.getD op.metadata
    error := match patch.error with
      | some e => some e
      | none => op.error
    updated_at := now }

/-! ## The wait loop body — ops wait in dist/commands/ops.js

One iteration of the while loop: look the receipt up, return it when
terminal, otherwise poll (when a poll descriptor exists) and either
record the poll result in the registry and continue, or mark the
receipt FAILED and return it. The outcome of the poll request is an
input, and the polled flag records whether a network request was
issued. -/

/-- Outcome of the poll request (the data abstracted to a string). -/
inductive PollOutcome where
  | ok (data : String)
  | err (message : String)
deriving DecidableEq, Repr

/-- Result of one wait-loop iteration: op_id not found (throws
RESOURCE_NOT_FOUND), a terminal receipt returned, or another round. In
the latter two the registry contents after the iteration and whether a
poll request was made are recorded. -/
inductive WaitStep where
  | notFound
  | done (result : Receipt) (file : List Receipt) (polled : Bool)
  | again (file : List Receipt) (polled : Bool)
deriving DecidableEq, Repr

/-- One iteration of the ops wait loop. -/
def waitStep (now : Int) (file : List Receipt) (id : String)
    (pollResult : PollOutcome) : WaitStep :=
  match (readOps file).find? (fun item => item.op_id == id) with
  | none => WaitStep.notFound
  | some found =>
    if found.status = OpStatus.COMPLETED ∨ found.status = OpStatus.FAILED then
      WaitStep.done found file false
    else
      match found.poll with
      | some _ =>
        match pollResult with
        | .ok data =>
          let updated := touchOp now found { metadata := some [("poll", data)] }
          WaitStep.again (updateOp now updated file) true
        | .err msg =>
          let failed := touchOp now found
            { status := some OpStatus.FAILED
              error := some { code := "POLL_FAILED", message := msg } }
          WaitStep.done failed (updateOp now failed file) true
      | none => WaitStep.again file false

/-! ## Command execution harness — runAction / handleError in src/core/cli.ts

The harness is modelled over the outcomes of its three fallible phases:
the --token-stdin conflict check (ensureTokenStdinSafe), context
resolution (resolveContext, which runs resolveConfig over the config
file, the environment and the flags), and the command handler. Each
phase either produces its value or throws. resolveContext is a
deterministic computation of the invocation inputs, and handleError
runs it a second time; both runs are therefore the same Except value.
The observable is what reaches the primary output channel before
process.exit: exactly one envelope, nothing (streamed output already
emitted by the pagination engine), or a crash when a throw escapes
runAction itself and the process dies with no envelope. -/

/-- The slice of the resolved Context the harness branches on. -/
structure Ctx where
  ndjson : Bool
deriving DecidableEq, Repr

/-- An ActionResult: handler payload, optional exit-code override
(dry-run), and the streamed marker (result.data.streamed === true). -/
structure ActionResult (α : Type) where
  data : α
  exitCode : Option Nat := none
  streamed : Bool := false
deriving DecidableEq, Repr

/-- The envelope written to the primary channel (metadata carries no
claim-relevant information and is omitted). -/
inductive Envelope (α : Type) where
  | success (data : α)
  | error (e : CliError)
deriving DecidableEq, Repr

/-- What one invocation leaves on the primary channel: an envelope and
an exit code, a bare exit code after fully-streamed output, or a crash
— an exception escaped runAction and the process died with no envelope
written. -/
inductive RunOutcome (α : Type) where
  | emitted (envelope : Option (Envelope α)) (exit : Nat)
  | crashed
deriving DecidableEq, Repr

/-- The coercion of handleError: a CliError is used as-is, anything
else becomes a non-recoverable INTERNAL_ERROR keeping the message. -/
def coerceThrown : Thrown → CliError
  | .cli e => e
  | .other msg => { code := .INTERNAL_ERROR, message := msg, recoverable := false }

/-- handleError of src/core/cli.ts. Its first statement re-runs
resolveContext: when that throws again the rejection escapes (there is
no enclosing catch), so the process crashes without an envelope;
otherwise the error envelope is emitted and the process exits with the
taxonomy exit code. -/
def handleError {α : Type} (resolve : Except Thrown Ctx) (err : Thrown) :
    RunOutcome α :=
  match resolve with
  | Except.error _ => RunOutcome.crashed
  | Except.ok _ =>
    let e := coerceThrown err
    RunOutcome.emitted (some (Envelope.error e)) (EXIT_CODES e.code)

/-- runAction of src/core/cli.ts: conflict check, context resolution and
handler run inside one try; any throw goes to handleError. On success a
success envelope is emitted unless the result was already streamed, and
the process exits with the override code or EXIT_CODES.SUCCESS. -/
def runAction {α : Type} (ensure : Except Thrown Unit)
    (resolve : Except Thrown Ctx)
    (handler : Ctx → Except Thrown (ActionResult α)) : RunOutcome α :=
  match ensure with
  | Except.error e => handleError resolve e
  | Except.ok _ =>
    match resolve with
    | Except.error e => handleError resolve e
    | Except.ok ctx =>
      match handler ctx with
      | Except.error e => handleError resolve e
      | Except.ok result =>
        if ctx.ndjson && result.streamed then
          RunOutcome.emitted none (result.exitCode.getD EXIT_SUCCESS)
        else
          RunOutcome.emitted (some (Envelope.success result.data))
            (result.exitCode.getD EXIT_SUCCESS)

/-! ## Concrete inputs used by witnesses and counterexamples -/

/-- An upstream that answers every attempt with HTTP 404 and the body
of the spec scenario. -/
def u404 : Nat → FetchOutcome :=
  fun _ => FetchOutcome.ok 404 { message := some "not found" } none

/-- An upstream that answers every attempt with HTTP 429 and an empty
JSON body. -/
def u429 : Nat → FetchOutcome :=
  fun _ => FetchOutcome.ok 429 {} none

/-- An upstream for path-rejection scenarios; never reached. -/
def uNever : Nat → FetchOutcome :=
  fun _ => FetchOutcome.netError "unreachable"

/-- The page-fetch function of the spec scenario: page one holds results
1 and 2 with cursor a, the page behind any cursor is the final one. -/
def scenarioPages : Option String → Page Nat
  | none => { results := [1, 2], has_more := true, next_cursor := some "a" }
  | some _ => { results := [3], has_more := false, next_cursor := none }

/-- A receipt whose updated_at lies outside the retention window
relative to tNow below. -/
def expiredReceipt : Receipt :=
  { op_id := "op-expired"
    type := "export"
    status := OpStatus.IN_PROGRESS
    resource_id := none
    resource_type := none
    created_at := 0
    updated_at := 0
    metadata := []
    poll := none
    error := none }

/-- The current time of the registry scenarios: day 40. -/
def tNow : Int := 40 * MILLIS_PER_DAY

/-- A receipt created at tNow. -/
def freshReceipt : Receipt :=
  { expiredReceipt with op_id := "op-new", created_at := tNow, updated_at := tNow }

/-- A live receipt carrying a metadata key the wait loop never patches. -/
def metaReceipt : Receipt :=
  { expiredReceipt with
    op_id := "op-meta"
    status := OpStatus.IN_PROGRESS
    created_at := tNow
    updated_at := tNow
    metadata := [("a", "1")]
    poll := some { method := "GET", path := "/v1/exports/1" } }

/-- The metadata patch the wait loop applies after a successful poll
(dist/commands/ops.js line 70). -/
def pollPatch : Patch := { metadata := some [("poll", "queued")] }

/-- A receipt already in the terminal COMPLETED state. -/
def completedReceipt : Receipt :=
  { metaReceipt with op_id := "op-done", status := OpStatus.COMPLETED }

/-- A request path containing a traversal sequence and also a malformed
percent escape. -/
def malformedTraversalPath : List Char := "../a%".toList

/-!
# Theorems

One theorem per claim of CLAIMS.json, with the helper lemmas they
share. Counterexample and witness theorems are closed statements over
the concrete inputs above.
-/

/-- C1: every invocation run through runAction terminates having written
exactly one envelope — including when configuration resolution itself
fails. The code violates this: handleError starts by running
resolveContext again, the rethrown resolution failure escapes runAction
(there is no outer catch), and the process dies with nothing on the
primary channel. Evaluated here at the failing input: a config whose
resolution throws (for example a config file whose JSON.parse fails). -/
theorem runAction_crashes_on_config_failure :
    runAction (α := Unit) (Except.ok ())
      (Except.error (Thrown.other "SyntaxError: Unexpected token in JSON"))
      (fun _ => Except.ok { data := () }) = RunOutcome.crashed := rfl

/-- C2: an upstream HTTP 404 with a JSON message body yields the
taxonomy error RESOURCE_NOT_FOUND with exit code 4, as the claim says —
but with recoverable = false, not true: the engine marks only 429 and
5xx responses recoverable, contradicting the claim (and the error-code
registry document of the repository, which lists RESOURCE_NOT_FOUND as
recoverable). Evaluated at the failing input of the claim scenario. -/
theorem request_404_not_found_unrecoverable :
    (request u404 "/v1/pages/abc123".toList 30000 0).1 =
      Except.error (Thrown.cli
        { code := ErrorCode.RESOURCE_NOT_FOUND
          message := "not found"
          recoverable := false
          suggestedAction := none }) ∧
    EXIT_CODES ErrorCode.RESOURCE_NOT_FOUND = 4 := by
  exact ⟨rfl, rfl⟩

/-- C3 counterexample: a receipt 40 days stale is still present in the
list returned by the next read — readOps parses the store without
pruning, so the claim fails for the read operation. -/
theorem readOps_returns_expired_receipt :
    expiredReceipt.updated_at < tNow - RETENTION_DAYS * MILLIS_PER_DAY ∧
    expiredReceipt ∈ readOps [expiredReceipt] := by
  exact ⟨by decide, by simp [readOps]⟩

/-- C3 (amended): a receipt whose updated_at lies more than 30 days
before now is absent from the file after the next write operation
(append or update); plain reads return the stored list unpruned. -/
theorem expired_absent_after_write (now : Int) (op r : Receipt)
    (file : List Receipt)
    (hexp : r.updated_at < now - RETENTION_DAYS * MILLIS_PER_DAY)
    (hne : r ≠ op) :
    r ∉ appendOp now op file ∧ r ∉ updateOp now op file := by
  constructor
  · intro hmem
    simp only [appendOp, readOps, cleanupOps, List.mem_append, List.mem_filter,
      List.mem_singleton, decide_eq_true_eq] at hmem
    rcases hmem with ⟨-, hle⟩ | heq
    · exact absurd hle (not_le.mpr hexp)
    · exact hne heq
  · intro hmem
    simp only [updateOp, readOps, cleanupOps, List.mem_map, List.mem_filter,
      decide_eq_true_eq] at hmem
    obtain ⟨e, ⟨-, hle⟩, hr⟩ := hmem
    by_cases hid : e.op_id = op.op_id
    · rw [if_pos hid] at hr
      exact hne hr.symm
    · rw [if_neg hid] at hr
      subst hr
      exact absurd hle (not_le.mpr hexp)

/-- C3 witness: the expired receipt of the counterexample is indeed
gone after an append and after an update performed at day 40. -/
theorem expired_absent_after_write_witness :
    expiredReceipt ∉ appendOp tNow freshReceipt [expiredReceipt] ∧
    expiredReceipt ∉ updateOp tNow freshReceipt [expiredReceipt] :=
  expired_absent_after_write tNow freshReceipt expiredReceipt [expiredReceipt]
    (by decide) (by decide)

/-- C4 counterexample: touchOp applied with the wait-loop poll patch
drops the pre-existing metadata key a — the spread is shallow, so a
patch that mentions metadata replaces the whole map instead of merging
into it. -/
theorem touchOp_drops_unpatched_metadata_key :
    metaReceipt.metadata.lookup "a" = some "1" ∧
    (touchOp tNow metaReceipt pollPatch).metadata.lookup "a" = none := by
  exact ⟨rfl, rfl⟩

/-- C4 (amended): when an update mentions metadata, the receipt's
metadata map is replaced wholesale by the update's map (lookups are
answered by the patch map alone); fields the update does not mention
are preserved, and updated_at is refreshed to now. -/
theorem touchOp_replaces_metadata (now : Int) (op : Receipt) (p : Patch)
    (m : List (String × String)) (k : String) (hp : p.metadata = some m) :
    (touchOp now op p).metadata.lookup k = m.lookup k ∧
    (touchOp now op p).op_id = op.op_id ∧
    (touchOp now op p).type = op.type ∧
    (touchOp now op p).created_at = op.created_at ∧
    (touchOp now op p).updated_at = now := by
  simp [touchOp, hp]

/-- C4 witness: the amended statement at the concrete receipt and the
wait-loop poll patch. -/
theorem touchOp_replaces_metadata_witness :
    (touchOp tNow metaReceipt pollPatch).metadata.lookup "poll" =
      [("poll", "queued")].lookup "poll" ∧
    (touchOp tNow metaReceipt pollPatch).op_id = metaReceipt.op_id ∧
    (touchOp tNow metaReceipt pollPatch).type = metaReceipt.type ∧
    (touchOp tNow metaReceipt pollPatch).created_at = metaReceipt.created_at ∧
    (touchOp tNow metaReceipt pollPatch).updated_at = tNow :=
  touchOp_replaces_metadata tNow metaReceipt pollPatch [("poll", "queued")] "poll" rfl

/-- C9: when the receipt the wait loop finds is terminal (COMPLETED or
FAILED) the iteration returns it unchanged, leaves the registry file
untouched and issues no poll request. -/
theorem waitStep_terminal_identity (now : Int) (file : List Receipt)
    (id : String) (pr : PollOutcome) (found : Receipt)
    (hfind : (readOps file).find? (fun item => item.op_id == id) = some found)
    (hterm : found.status = OpStatus.COMPLETED ∨ found.status = OpStatus.FAILED) :
    waitStep now file id pr = WaitStep.done found file false := by
  simp only [waitStep, hfind]
  rw [if_pos hterm]

/-- C9 witness: a registry holding one COMPLETED receipt; the wait step
returns it as-is with no registry write and no poll. -/
theorem waitStep_terminal_identity_witness :
    waitStep tNow [completedReceipt] "op-done" (PollOutcome.ok "r") =
      WaitStep.done completedReceipt [completedReceipt] false :=
  waitStep_terminal_identity tNow [completedReceipt] "op-done"
    (PollOutcome.ok "r") completedReceipt rfl (Or.inl rfl)

/-- Every exit of the retry loop has made at most attempt + budget
physical attempts. -/
theorem requestLoop_attempts_le (u : Nat → FetchOutcome) (t : Nat) :
    ∀ (budget attempt : Nat) (le : Option Thrown),
      (requestLoop u t attempt budget le).2 ≤ attempt + budget := by
  intro budget
  induction budget with
  | zero =>
    intro attempt le
    cases le <;> simp [requestLoop]
  | succ b ih =>
    intro attempt le
    cases h : u attempt with
    | timeout =>
      simp only [requestLoop, h]
      split
      · exact le_trans (ih _ _) (by omega)
      · simp
    | netError msg =>
      simp only [requestLoop, h]
      split
      · simp
      · exact le_trans (ih _ _) (by omega)
    | ok status body ra =>
      simp only [requestLoop, h]
      split
      · simp
      · split
        · exact le_trans (ih _ _) (by omega)
        · split
          · exact le_trans (ih _ _) (by omega)
          · simp

/-- Against an upstream answering 429 on every attempt, the retry loop
spends its whole budget and surfaces the mapped CliError. -/
theorem requestLoop_always_429 (u : Nat → FetchOutcome) (t : Nat)
    (body : JsonBody) (ra : Option Nat)
    (hall : ∀ k, u k = FetchOutcome.ok 429 body ra) :
    ∀ (budget attempt : Nat) (le : Option Thrown), 1 ≤ budget →
      requestLoop u t attempt budget le =
        (Except.error (Thrown.cli (httpStatusError 429 body)), attempt + budget) := by
  intro budget
  induction budget with
  | zero => omega
  | succ b ih =>
    intro attempt le _
    simp only [requestLoop, hall attempt]
    by_cases hb : 1 ≤ b
    · rw [if_neg (by omega), if_pos (by simp [hb])]
      have harith : attempt + (b + 1) = (attempt + 1) + b := by omega
      rw [harith]
      exact ih (attempt + 1) le hb
    · rw [if_neg (by omega), if_neg (by simp [hb]), if_neg (by simp [hb])]
      have : b = 0 := by omega
      subst this
      rfl

/-- C5: with retries = N the engine makes at most N + 1 physical
attempts, whatever the upstream does; and against an upstream that
answers HTTP 429 on every attempt (and a path that passes validation)
it makes exactly N + 1 attempts and surfaces the taxonomy error
RATE_LIMITED. -/
theorem request_retry_bound (u : Nat → FetchOutcome) (path : List Char)
    (t retries : Nat) (body : JsonBody) (ra : Option Nat) :
    (request u path t retries).2 ≤ retries + 1 ∧
    (validatePath path = Except.ok () →
     (∀ k, u k = FetchOutcome.ok 429 body ra) →
     request u path t retries =
       (Except.error (Thrown.cli (httpStatusError 429 body)), retries + 1) ∧
     (httpStatusError 429 body).code = ErrorCode.RATE_LIMITED) := by
  constructor
  · unfold request
    cases hv : validatePath path with
    | error e => simp
    | ok u' =>
      have := requestLoop_attempts_le u t (retries + 1) 0 none
      simpa using this
  · intro hv hall
    refine ⟨?_, rfl⟩
    unfold request
    rw [hv]
    have := requestLoop_always_429 u t body ra hall (retries + 1) 0 none (by omega)
    simpa using this

/-- C5 witness: a permanently-429 upstream with retries = 2 makes
exactly 3 attempts and surfaces RATE_LIMITED. -/
theorem request_retry_bound_witness :
    request u429 "/v1/users".toList 30000 2 =
      (Except.error (Thrown.cli (httpStatusError 429 {})), 3) ∧
    (httpStatusError 429 {}).code = ErrorCode.RATE_LIMITED :=
  (request_retry_bound u429 "/v1/users".toList 30000 2 {} none).2 rfl (fun _ => rfl)

/-- Along a run with no early stop, the loop visits exactly the pages
of pageSeq: starting at the cursor of iteration i with j iterations
still to run before the first stopping page, the accumulating loop
returns the accumulated results of pages i..i+j and their length. -/
theorem paginateGo_runs {A : Type} (f : Option String → Page A) :
    ∀ (j i fuel : Nat) (out : List (NdLine A)) (all : List A) (total : Nat),
      (∀ k, k < j → pageStops (pageSeq f (i + k)) = false) →
      pageStops (pageSeq f (i + j)) = true →
      j < fuel →
      paginateGo f false fuel (traceCursor f i) out all total =
        some (out, all ++ segment f i j, (all ++ segment f i j).length) := by
  intro j
  induction j with
  | zero =>
    intro i fuel out all total hrun hstop hfuel
    cases fuel with
    | zero => omega
    | succ fl =>
      have hstop0 : pageStops (f (traceCursor f i)) = true := by
        simpa [pageSeq] using hstop
      simp [paginateGo, hstop0, segment, pageSeq]
  | succ j ih =>
    intro i fuel out all total hrun hstop hfuel
    cases fuel with
    | zero => omega
    | succ fl =>
      have h0 : pageStops (f (traceCursor f i)) = false := by
        have := hrun 0 (by omega)
        simpa [pageSeq] using this
      have hrun1 : ∀ k, k < j → pageStops (pageSeq f (i + 1 + k)) = false := by
        intro k hk
        have e : i + 1 + k = i + (k + 1) := by omega
        rw [e]
        exact hrun (k + 1) (by omega)
      have hstop1 : pageStops (pageSeq f (i + 1 + j)) = true := by
        have e : i + 1 + j = i + (j + 1) := by omega
        rw [e]
        exact hstop
      have hrec := ih (i + 1) fl out (all ++ (f (traceCursor f i)).results)
        ((all ++ (f (traceCursor f i)).results).length) hrun1 hstop1 (by omega)
      have hcur : traceCursor f (i + 1) = (f (traceCursor f i)).next_cursor := rfl
      rw [hcur] at hrec
      simp only [paginateGo, h0, if_false, Bool.false_eq_true]
      rw [hrec]
      simp [segment, pageSeq, List.append_assoc]

/-- C6: whenever the fetch function eventually yields a page with
has_more false or a null cursor along the cursor trace, the
accumulating engine terminates (any fuel beyond the stopping index
returns a value, so the unbounded source loop exits); the result is
the concatenation of the visited pages in page order and total is its
length. The stopping index m is the first page where the loop
condition fires, which also covers a page lying about has_more with an
empty or missing cursor. -/
theorem paginateAll_accumulates {A : Type} (f : Option String → Page A) (n : Nat)
    (hstop : (pageSeq f n).has_more = false ∨ (pageSeq f n).next_cursor = none) :
    ∃ m, m ≤ n ∧ ∀ fuel, m < fuel →
      paginateAll f false fuel =
        some ([], some (segment f 0 m, (segment f 0 m).length)) := by
  have hex : ∃ k, pageStops (pageSeq f k) = true := by
    refine ⟨n, ?_⟩
    rcases hstop with h | h <;> simp [pageStops, cursorFalsy, h]
  refine ⟨Nat.find hex, Nat.find_min' hex ?_, ?_⟩
  · rcases hstop with h | h <;> simp [pageStops, cursorFalsy, h]
  · intro fuel hfuel
    have hrun : ∀ k, k < Nat.find hex → pageStops (pageSeq f k) = false := by
      intro k hk
      have := Nat.find_min hex hk
      simpa using this
    have := paginateGo_runs f (Nat.find hex) 0 fuel [] [] 0
      (fun k hk => by simpa using hrun k hk)
      (by simpa using Nat.find_spec hex) hfuel
    have hcur0 : traceCursor f 0 = none := rfl
    rw [hcur0] at this
    simp [paginateAll, this]

/-- C6 witness: the spec scenario pages stop at index 1; the engine
returns [1, 2, 3] with total 3 for any fuel of at least 2. -/
theorem paginateAll_accumulates_witness :
    ∃ m, m ≤ 1 ∧ ∀ fuel, m < fuel →
      paginateAll scenarioPages false fuel =
        some ([], some (segment scenarioPages 0 m,
          (segment scenarioPages 0 m).length)) :=
  paginateAll_accumulates scenarioPages 1 (Or.inl rfl)

/-- The accumulating loop never touches the emitted-lines accumulator,
only extends the results accumulator, and reports its final length. -/
theorem paginateGo_accum_spec {A : Type} (f : Option String → Page A) :
    ∀ (fuel : Nat) (cursor : Option String) (out : List (NdLine A))
      (all : List A) (total : Nat) (o : List (NdLine A)) (a : List A) (t : Nat),
      paginateGo f false fuel cursor out all total = some (o, a, t) →
      o = out ∧ (∃ extra, a = all ++ extra) ∧ t = a.length := by
  intro fuel
  induction fuel with
  | zero => intro cursor out all total o a t h; simp [paginateGo] at h
  | succ fl ih =>
    intro cursor out all total o a t h
    simp only [paginateGo] at h
    by_cases hs : pageStops (f cursor)
    · rw [if_pos hs] at h
      simp only [Bool.false_eq_true, if_false, Option.some.injEq, Prod.mk.injEq] at h
      obtain ⟨ho, ha, ht⟩ := h
      exact ⟨ho.symm, ⟨(f cursor).results, ha.symm⟩, by rw [← ht, ← ha]⟩
    · rw [if_neg hs] at h
      simp only [Bool.false_eq_true, if_false] at h
      obtain ⟨ho, ⟨extra, ha⟩, ht⟩ := ih _ _ _ _ _ _ _ h
      exact ⟨ho, ⟨(f cursor).results ++ extra, by rw [ha, List.append_assoc]⟩, ht⟩

/-- Streaming and accumulating runs visit the same pages and stop at the
same point: when the accumulating run from a given cursor extends its
accumulator by extra, the streaming run from the same cursor writes
exactly the item lines of extra and adds their number to its count. -/
theorem paginateGo_stream_spec {A : Type} (f : Option String → Page A) :
    ∀ (fuel : Nat) (cursor : Option String) (all : List A) (total : Nat)
      (extra : List A) (tf : Nat) (outS : List (NdLine A)) (allS : List A)
      (cnt : Nat),
      paginateGo f false fuel cursor [] all total = some ([], all ++ extra, tf) →
      paginateGo f true fuel cursor outS allS cnt =
        some (outS ++ extra.map NdLine.item, allS, cnt + extra.length) := by
  intro fuel
  induction fuel with
  | zero => intro cursor all total extra tf outS allS cnt h; simp [paginateGo] at h
  | succ fl ih =>
    intro cursor all total extra tf outS allS cnt h
    simp only [paginateGo] at h ⊢
    by_cases hs : pageStops (f cursor)
    · rw [if_pos hs] at h ⊢
      simp only [Bool.false_eq_true, if_false, Option.some.injEq, Prod.mk.injEq] at h
      obtain ⟨-, ha, -⟩ := h
      have hextra : extra = (f cursor).results :=
        (List.append_cancel_left ha).symm
      subst hextra
      simp
    · rw [if_neg hs] at h ⊢
      simp only [Bool.false_eq_true, if_false] at h
      obtain ⟨-, ⟨e2, he2⟩, -⟩ := paginateGo_accum_spec f fl _ _ _ _ _ _ _ h
      have hextra : extra = (f cursor).results ++ e2 := by
        have : all ++ extra = all ++ ((f cursor).results ++ e2) := by
          rw [he2, List.append_assoc]
        exact List.append_cancel_left this
      subst hextra
      rw [he2] at h
      have hrec := ih (f cursor).next_cursor (all ++ (f cursor).results)
        ((all ++ (f cursor).results).length) e2 tf
        (outS ++ ((f cursor).results.map NdLine.item))
        allS (cnt + (f cursor).results.length) h
      simp only [if_true]
      rw [hrec]
      simp [List.append_assoc, Nat.add_assoc]

/-- C7: on the same fetch function and the same fuel, whenever the
accumulating mode returns results res with total tot, the streaming
mode writes exactly the item lines of res in the same order followed by
exactly one summary line whose count equals res.length (= tot), and
returns no in-memory result. -/
theorem paginateAll_stream_equiv {A : Type} (f : Option String → Page A)
    (fuel : Nat) (res : List A) (tot : Nat)
    (h : paginateAll f false fuel = some ([], some (res, tot))) :
    paginateAll f true fuel =
      some (res.map NdLine.item ++ [NdLine.summary res.length], none) ∧
    tot = res.length := by
  cases hv : paginateGo f false fuel none [] [] 0 with
  | none =>
    unfold paginateAll at h
    rw [hv] at h
    simp at h
  | some w =>
    obtain ⟨o, a, t⟩ := w
    have h' : o = [] ∧ a = res ∧ t = tot := by
      unfold paginateAll at h
      rw [hv] at h
      simpa using h
    obtain ⟨ho, ha, ht⟩ := h'
    rw [ho, ha, ht] at hv
    obtain ⟨-, ⟨extra, hex⟩, hlen⟩ :=
      paginateGo_accum_spec f fuel none [] [] 0 [] res tot hv
    have hstream := paginateGo_stream_spec f fuel none [] 0 res tot [] [] 0
      (by simpa using hv)
    constructor
    · unfold paginateAll
      rw [hstream]
      simp
    · exact hlen

/-- C7 witness: on the spec scenario pages with fuel 2, the streaming
mode emits item lines 1, 2, 3 and one summary line with count 3, and
returns no result. -/
theorem paginateAll_stream_equiv_witness :
    paginateAll scenarioPages true 2 =
      some ((([1, 2, 3] : List Nat).map NdLine.item) ++
        [NdLine.summary ([1, 2, 3] : List Nat).length], none) ∧
    (3 : Nat) = ([1, 2, 3] : List Nat).length :=
  paginateAll_stream_equiv scenarioPages 2 [1, 2, 3] 3 rfl
/-- An occurrence of a needle is also an occurrence of any of its
prefixes. -/
theorem needle_weaken {hay n1 n2 : List Char} (hpre : n1 <+: n2)
    (h : n2 <:+: hay) : n1 <:+: hay :=
  ( List.IsPrefix.isInfix hpre).trans h

/-- Unfolding: a percent escape with two hex digits and an ASCII value
decodes to that character in front of the decoded remainder. -/
theorem decode_pct_ok {h1 h2 : Char} {a b : Nat} (rest2 : List Char)
    (ha : hexVal h1 = some a) (hb : hexVal h2 = some b)
    (hv : 16 * a + b < 128) :
    decodeURIComponent ('%' :: h1 :: h2 :: rest2) =
      (decodeURIComponent rest2).map (fun d => Char.ofNat (16 * a + b) :: d) := by
  rw [decodeURIComponent.eq_def]
  dsimp only
  rw [if_pos rfl, ha, hb]
  dsimp only
  rw [if_pos hv]

/-- Unfolding: a literal character other than the percent sign passes
through in front of the decoded remainder. -/
theorem decode_lit {c : Char} (rest : List Char) (hc : ¬ c = '%')
    (hascii : c.toNat < 128) :
    decodeURIComponent (c :: rest) =
      (decodeURIComponent rest).map (fun d => c :: d) := by
  rw [decodeURIComponent.eq_def]
  dsimp only
  rw [if_neg hc, if_pos hascii]

/-- Percent-decoding preserves a literal ".." occurrence: a dot is
never part of a percent triple (it is neither a percent sign nor a hex
digit), so two adjacent dots of the input reappear adjacent in any
successful decoding. -/
theorem decode_keeps_dotdot :
    ∀ (p d : List Char), decodeURIComponent p = some d →
      ['.', '.'] <:+: p → ['.', '.'] <:+: d := by
  have main : ∀ (n : Nat) (p d : List Char), p.length ≤ n →
      decodeURIComponent p = some d → ['.', '.'] <:+: p → ['.', '.'] <:+: d := by
    intro n
    induction n with
    | zero =>
      intro p d hl hdec hsub
      have hp : p = [] := List.length_eq_zero.mp (by omega)
      subst hp
      rw [ List.infix_nil] at hsub
      exact absurd hsub (by simp)
    | succ n ih =>
      intro p d hl hdec hsub
      cases p with
      | nil =>
        rw [ List.infix_nil] at hsub
        exact absurd hsub (by simp)
      | cons c rest =>
        by_cases hc : c = '%'
        · subst hc
          cases rest with
          | nil => exact absurd hdec (by simp [decodeURIComponent])
          | cons h1 rest1 =>
            cases rest1 with
            | nil => exact absurd hdec (by simp [decodeURIComponent])
            | cons h2 rest2 =>
              cases ha : hexVal h1 with
              | none =>
                rw [decodeURIComponent.eq_def] at hdec
                dsimp only at hdec
                rw [if_pos rfl, ha] at hdec
                exact absurd hdec (by simp)
              | some a =>
                cases hb : hexVal h2 with
                | none =>
                  rw [decodeURIComponent.eq_def] at hdec
                  dsimp only at hdec
                  rw [if_pos rfl, ha, hb] at hdec
                  exact absurd hdec (by simp)
                | some b =>
                  by_cases hv : 16 * a + b < 128
                  · rw [decode_pct_ok rest2 ha hb hv] at hdec
                    cases hrec : decodeURIComponent rest2 with
                    | none => rw [hrec] at hdec; simp at hdec
                    | some d2 =>
                      rw [hrec] at hdec
                      simp only [Option.map_some', Option.some.injEq] at hdec
                      subst hdec
                      rw [ List.infix_cons_iff] at hsub
                      rcases hsub with hpre | hsub
                      · rw [ List.cons_prefix_cons] at hpre
                        exact absurd hpre.1 (by decide)
                      · rw [ List.infix_cons_iff] at hsub
                        rcases hsub with hpre | hsub
                        · rw [ List.cons_prefix_cons] at hpre
                          rw [← hpre.1] at ha
                          rw [show hexVal '.' = none from rfl] at ha
                          exact absurd ha (by simp)
                        · rw [ List.infix_cons_iff] at hsub
                          rcases hsub with hpre | hsub
                          · rw [ List.cons_prefix_cons] at hpre
                            rw [← hpre.1] at hb
                            rw [show hexVal '.' = none from rfl] at hb
                            exact absurd hb (by simp)
                          · have hlen : rest2.length ≤ n := by
                              simp only [List.length_cons] at hl
                              omega
                            exact List.infix_cons (ih rest2 d2 hlen hrec hsub)
                  · rw [decodeURIComponent.eq_def] at hdec
                    dsimp only at hdec
                    rw [if_pos rfl, ha, hb] at hdec
                    dsimp only at hdec
                    rw [if_neg hv] at hdec
                    exact absurd hdec (by simp)
        · by_cases hascii : c.toNat < 128
          · rw [decode_lit rest hc hascii] at hdec
            cases hrec : decodeURIComponent rest with
            | none => rw [hrec] at hdec; simp at hdec
            | some d2 =>
              rw [hrec] at hdec
              simp only [Option.map_some', Option.some.injEq] at hdec
              subst hdec
              rw [ List.infix_cons_iff] at hsub
              rcases hsub with hpre | hsub
              · rw [ List.cons_prefix_cons] at hpre
                obtain ⟨hcdot, hrest⟩ := hpre
                cases rest with
                | nil => exact absurd hrest (by simp)
                | cons c2 rest2 =>
                  rw [ List.cons_prefix_cons] at hrest
                  obtain ⟨hc2dot, -⟩ := hrest
                  rw [← hc2dot] at hrec
                  rw [decode_lit rest2 (by decide) (by decide)] at hrec
                  cases hrec2 : decodeURIComponent rest2 with
                  | none => rw [hrec2] at hrec; exact absurd hrec (by simp)
                  | some d3 =>
                    rw [hrec2] at hrec
                    simp only [Option.map_some', Option.some.injEq] at hrec
                    refine List.IsPrefix.isInfix ?_
                    rw [← hcdot, ← hrec]
                    exact ⟨d3, rfl⟩
              · have hlen : rest.length ≤ n := by
                  simp only [List.length_cons] at hl
                  omega
                exact List.infix_cons (ih rest d2 hlen hrec hsub)
          · rw [decodeURIComponent.eq_def] at hdec
            dsimp only at hdec
            rw [if_neg hc, if_neg hascii] at hdec
            exact absurd hdec (by simp)
  exact fun p d => main p.length p d le_rfl

/-- ASCII lower-casing keeps dots in place: ".." occurs in the
lower-cased list whenever it occurs in the original. -/
theorem lower_keeps_dotdot {d : List Char} (h : ['.', '.'] <:+: d) :
    ['.', '.'] <:+: d.map asciiLower := by
  have hmap := List.IsInfix.map asciiLower h
  have he : (['.', '.'] : List Char).map asciiLower = ['.', '.'] := by decide
  rw [he] at hmap
  exact hmap

/-- validatePath rejects exactly when the decoded, lower-cased path
contains ".." or "%2e". -/
theorem validatePath_rejects {p d : List Char}
    (hdec : decodeURIComponent p = some d)
    (hsub : ['.', '.'] <:+: d.map asciiLower ∨
            ['%', '2', 'e'] <:+: d.map asciiLower) :
    validatePath p = Except.error (Thrown.cli pathTraversalError) := by
  unfold validatePath
  rw [hdec]
  exact if_pos hsub

/-- C8 counterexample: the path "../a%" contains the traversal sequence
"../", yet the engine does not reject it with INVALID_ARGUMENT:
decodeURIComponent throws URIError on the malformed trailing escape, so
the request fails (still before any network call — zero attempts) with
a non-taxonomy error instead. -/
theorem traversal_with_malformed_escape_not_invalid_argument :
    (['.', '.', '/'] <:+: malformedTraversalPath) ∧
    request uNever malformedTraversalPath 30000 2 =
      (Except.error (Thrown.other "URIError: URI malformed"), 0) := by
  exact ⟨by decide, rfl⟩

/-- C8 (amended): for a path that is a well-formed percent encoding,
containing "../" literally, or "..%2f" in either case of the escape, or
decoding to something whose lower-cased form contains "../" (any
percent-encoded traversal spelling), the request engine rejects it with
the taxonomy error INVALID_ARGUMENT and makes no network attempt. A
path whose decoding fails is also rejected before any network call, but
through the URIError of decodeURIComponent rather than
INVALID_ARGUMENT (see the counterexample). -/
theorem request_rejects_traversal (upstream : Nat → FetchOutcome)
    (t retries : Nat) (p d : List Char)
    (hdec : decodeURIComponent p = some d)
    (htrav : ['.', '.', '/'] <:+: p ∨ ['.', '.', '%', '2', 'f'] <:+: p ∨
             ['.', '.', '%', '2', 'F'] <:+: p ∨
             ['.', '.', '/'] <:+: d.map asciiLower) :
    request upstream p t retries =
      (Except.error (Thrown.cli pathTraversalError), 0) ∧
    pathTraversalError.code = ErrorCode.INVALID_ARGUMENT := by
  have hdd : ['.', '.'] <:+: d.map asciiLower := by
    rcases htrav with h | h | h | h
    · exact lower_keeps_dotdot (decode_keeps_dotdot p d hdec (needle_weaken (by decide) h))
    · exact lower_keeps_dotdot (decode_keeps_dotdot p d hdec (needle_weaken (by decide) h))
    · exact lower_keeps_dotdot (decode_keeps_dotdot p d hdec (needle_weaken (by decide) h))
    · exact needle_weaken (by decide) h
  have hv := validatePath_rejects hdec (Or.inl hdd)
  refine ⟨?_, rfl⟩
  unfold request
  rw [hv]

/-- C8 witness: the well-formed traversal path "..%2fsecrets" is
rejected with INVALID_ARGUMENT and no attempt reaches the network. -/
theorem request_rejects_traversal_witness :
    request uNever "..%2fsecrets".toList 30000 2 =
      (Except.error (Thrown.cli pathTraversalError), 0) ∧
    pathTraversalError.code = ErrorCode.INVALID_ARGUMENT :=
  request_rejects_traversal uNever 30000 2 "..%2fsecrets".toList
    "../secrets".toList (by decide) (Or.inr (Or.inl (by decide)))

/-- C10: path validation is strictly broader than traversal detection:
any path (well-formed as a percent encoding) whose decoded lower-cased
form contains ".." anywhere — also inside an identifier with no
parent-directory segment — or contains "%2e" after decoding, is
rejected with INVALID_ARGUMENT before any network attempt. -/
theorem validate_rejects_any_dotdot (upstream : Nat → FetchOutcome)
    (t retries : Nat) (p d : List Char)
    (hdec : decodeURIComponent p = some d)
    (h : ['.', '.'] <:+: d.map asciiLower ∨
         ['%', '2', 'e'] <:+: d.map asciiLower) :
    request upstream p t retries =
      (Except.error (Thrown.cli pathTraversalError), 0) ∧
    pathTraversalError.code = ErrorCode.INVALID_ARGUMENT := by
  have hv := validatePath_rejects hdec h
  refine ⟨?_, rfl⟩
  unfold request
  rw [hv]

/-- C10 witness: "/blocks/a..b" contains no parent-directory segment,
yet is rejected with INVALID_ARGUMENT before any network call. -/
theorem validate_rejects_any_dotdot_witness :
    request uNever "/blocks/a..b".toList 30000 2 =
      (Except.error (Thrown.cli pathTraversalError), 0) ∧
    pathTraversalError.code = ErrorCode.INVALID_ARGUMENT :=
  validate_rejects_any_dotdot uNever 30000 2 "/blocks/a..b".toList
    "/blocks/a..b".toList (by decide) (Or.inl (by decide))

end NotionCli
